import Mathlib

/-!
Verification development for the Devshine time-tracker.

The definitions below are a shallow embedding of the TypeScript source:

* `shared/utils.ts`  — time-string arithmetic (`formatTimeForInput`,
  `timeToMinutes`, `calculateTotalHours`, `formatTime`, `isWeekend`);
* `server/storage.ts` (`DatabaseStorage`) — time-entry CRUD, report
  bucketing (`getDailyReportData`, `getWeeklyReportData`,
  `getMonthlyReportData`, `getEmployeeSummaryData`, `generateReport`) and
  `getDashboardStats`;
* `server/routes.ts` — the POST/PATCH/DELETE `/api/time-entries` handlers.

Modelling conventions:

* Calendar dates are natural numbers counting days since 1970-01-01
  (date-only semantics; `startOfDay`/`endOfDay` range queries on the
  `date` column become inclusive comparisons on the day number).
  `Date.prototype.getDay` becomes `jsDay` (1970-01-01 was a Thursday).
* JS numbers are embedded as `ℚ` (hours) / `ℤ` (break minutes) /
  `ℕ` (ids, minutes since midnight); `Number(x)` on the digit strings the
  app produces is `String.toNat?` with default `0` (the `NaN` produced on
  malformed digit groups is not modelled; no claim exercises it).
* JS objects used as maps (`dateData.values`) are association lists with
  JS assignment/lookup semantics (`setVal` / `lookupD`).
* Nullable columns are `Option`; JS truthiness tests on them are the
  explicit `truthy*` functions (`null`, `0` and `""` are falsy).
* The database is a `Store` holding the `time_entries` rows; drizzle
  queries become list filters, inserts append, updates map in place.
-/

/-! ### shared/utils.ts — time arithmetic

String primitives are implemented structurally over `String.data` so that
they evaluate by kernel reduction; they model the JS `split`, `includes`
and `Number` operations as used by the source. -/

/-- Digit value of a character, if it is a decimal digit. -/
def charDigit? (c : Char) : Option ℕ :=
  if '0' ≤ c ∧ c ≤ '9' then some (c.toNat - '0'.toNat) else none

/-- Accumulating decimal parse of a character list; `none` on any
non-digit. -/
def digitsValAux : List Char → ℕ → Option ℕ
  | [], acc => some acc
  | c :: cs, acc =>
    match charDigit? c with
    | some d => digitsValAux cs (acc * 10 + d)
    | none => none

/-- Models `Number(s)` / `parseInt(s, 10)` on the digit strings that reach it in
the source (`"09"`, `"30"`, …).  `Number("") = 0` is preserved; the `NaN`
JS produces on non-digit input is collapsed to `0` (no claim exercises
it). -/
def jsNumber (s : String) : ℕ :=
  (match s.data with
   | [] => some 0
   | l => digitsValAux l 0).getD 0

/-- Models `n.toString().padStart(2, "0")`. -/
def padTwo (n : ℕ) : String := if n < 10 then "0" ++ toString n else toString n

/-- Splitting a character list at a separator character (JS
`s.split(sep)` for a single-character separator). -/
def splitOnCharAux (sep : Char) : List Char → List Char → List (List Char)
  | [], acc => [acc.reverse]
  | c :: rest, acc =>
    if c = sep then acc.reverse :: splitOnCharAux sep rest []
    else splitOnCharAux sep rest (c :: acc)

/-- JS `s.split(sep)` for a single-character separator. -/
def splitOnChar (sep : Char) (s : String) : List String :=
  (splitOnCharAux sep s.data []).map fun cs => ⟨cs⟩

/-- Does `haystack` start with `needle`? -/
def startsWithSeq : List Char → List Char → Bool
  | [], _ => true
  | _ :: _, [] => false
  | a :: as, b :: bs => a == b && startsWithSeq as bs

/-- Does the list contain `needle` as a contiguous subsequence? -/
def containsSeq (needle : List Char) : List Char → Bool
  | [] => startsWithSeq needle []
  | c :: rest => startsWithSeq needle (c :: rest) || containsSeq needle rest

/-- Models `s.includes(sub)`. -/
def includesSub (s sub : String) : Bool := containsSeq sub.data s.data

/-- Models `formatTimeForInput` from `shared/utils.ts`: 12-hour strings with an
AM/PM suffix are converted to 24-hour `"HH:MM"`, everything else passes
through; empty input yields `""`. -/
def formatTimeForInput (timeString : String) : String :=
  if timeString = "" then ""
  else if includesSub timeString "AM" || includesSub timeString "PM" then
    let parts := splitOnChar ' ' timeString
    let timePart := parts.getD 0 ""
    let period := parts.getD 1 ""
    let hm := splitOnChar ':' timePart
    let hours := hm.getD 0 ""
    let minutes := hm.getD 1 ""
    let hourNum := jsNumber hours
    let hourNum2 :=
      if period = "PM" && hourNum < 12 then hourNum + 12
      else if period = "AM" && hourNum = 12 then 0
      else hourNum
    padTwo hourNum2 ++ ":" ++ minutes
  else timeString

/-- Models `timeToMinutes` from `shared/utils.ts`: minutes since midnight. -/
def timeToMinutes (timeString : String) : ℕ :=
  let formattedTime := formatTimeForInput timeString
  let hm := splitOnChar ':' formattedTime
  jsNumber (hm.getD 0 "") * 60 + jsNumber (hm.getD 1 "")

/-- Models `calculateTotalHours` from `shared/utils.ts`.  `null` when either time
is missing/empty; a single +24h correction when checkout ≤ checkin. -/
def calculateTotalHours (checkInTime checkOutTime : String)
    (breakMinutes : ℤ) : Option ℚ :=
  if checkInTime = "" || checkOutTime = "" then none
  else
    let checkInMinutes : ℤ := timeToMinutes checkInTime
    let checkOutMinutes : ℤ := timeToMinutes checkOutTime
    if checkOutMinutes ≤ checkInMinutes then
      some (((24 * 60 + checkOutMinutes - checkInMinutes - breakMinutes : ℤ) : ℚ) / 60)
    else
      some (((checkOutMinutes - checkInMinutes - breakMinutes : ℤ) : ℚ) / 60)

/-- Models `formatTime` from `shared/utils.ts`: 24-hour `"HH:MM"` to 12-hour
`"h:MM AM/PM"`; strings already carrying AM/PM pass through. -/
def formatTime (time : String) : String :=
  if time = "" then ""
  else if includesSub time "AM" || includesSub time "PM" then time
  else
    let hm := splitOnChar ':' time
    let hours := jsNumber (hm.getD 0 "")
    let minutes := jsNumber (hm.getD 1 "")
    let period := if 12 ≤ hours then "PM" else "AM"
    let displayHours := if hours % 12 = 0 then 12 else hours % 12
    toString displayHours ++ ":" ++ padTwo minutes ++ " " ++ period

/-- Models `Date.prototype.getDay` on a day number (0 = Sunday … 6 = Saturday);
day 0 = 1970-01-01 was a Thursday.  (`Int.emod` by 7 is always in
`[0, 7)`, matching the real weekday for dates before the epoch too.) -/
def jsDay (d : ℤ) : ℤ := (d + 4) % 7

/-- Models `isWeekend` (`date-fns` and `shared/utils.ts` agree): Saturday or
Sunday. -/
def isWeekend (d : ℤ) : Bool := jsDay d == 0 || jsDay d == 6

/-- Models `date-fns` `startOfWeek(d, { weekStartsOn: 1 })`: the Monday starting
the week containing `d`, i.e. `d` minus `(getDay(d) + 6) % 7` days. -/
def startOfWeekMon (d : ℤ) : ℤ := d - (d + 3) % 7

/-! ### Calendar conversion and `date-fns` formatting

Day numbers (days since 1970-01-01) are converted to/from proleptic
Gregorian `(year, month, day)` triples with the standard era-based
algorithm; used to model the `format` calls (`"MMM d"`, `"EEE, MMM d"`,
`"MMMM yyyy"`) and `startOfMonth`/`endOfMonth`. -/

/-- Gregorian `(year, month, day-of-month)` of a day number. -/
def civilFromDays (d : ℕ) : ℕ × ℕ × ℕ :=
  let z := d + 719468
  let era := z / 146097
  let doe := z % 146097
  let yoe := (doe - doe / 1460 + doe / 36524 - doe / 146096) / 365
  let y0 := yoe + era * 400
  let doy := doe - (365 * yoe + yoe / 4 - yoe / 100)
  let mp := (5 * doy + 2) / 153
  let dom := doy - (153 * mp + 2) / 5 + 1
  let m := if mp < 10 then mp + 3 else mp - 9
  (if m ≤ 2 then y0 + 1 else y0, m, dom)

/-- Day number of a Gregorian date (inverse of `civilFromDays` on valid
dates from 1970 on). -/
def daysFromCivil (y m dom : ℕ) : ℕ :=
  let y1 := if m ≤ 2 then y - 1 else y
  let era := y1 / 400
  let yoe := y1 % 400
  let mp := if 2 < m then m - 3 else m + 9
  let doy := (153 * mp + 2) / 5 + dom - 1
  let doe := yoe * 365 + yoe / 4 - yoe / 100 + doy
  era * 146097 + doe - 719468

/-- English month names (`date-fns` `"MMMM"`). -/
def monthLong (m : ℕ) : String :=
  ["January", "February", "March", "April", "May", "June", "July",
   "August", "September", "October", "November", "December"].getD (m - 1) ""

/-- Abbreviated month names (`date-fns` `"MMM"`). -/
def monthShort (m : ℕ) : String := ⟨(monthLong m).data.take 3⟩

/-- Abbreviated weekday names indexed by `jsDay` (`date-fns` `"EEE"`). -/
def dayShort (w : ℕ) : String :=
  ["Sun", "Mon", "Tue", "Wed", "Thu", "Fri", "Sat"].getD w ""

/-- Models `format(d, "MMM d")`.  (Formatting is only meaningful for days from
the epoch on, which is all the application ever formats.) -/
def fmtMMMd (d : ℤ) : String :=
  let c := civilFromDays d.toNat
  monthShort c.2.1 ++ " " ++ toString c.2.2

/-- Models `format(d, "EEE, MMM d")` (daily-report bucket label). -/
def fmtEEEMMMd (d : ℤ) : String := dayShort (jsDay d).toNat ++ ", " ++ fmtMMMd d

/-- Months since year 0 of the month containing day `d`; models the
`"yyyy-MM"` key used to group the monthly report. -/
def monthIndex (d : ℤ) : ℕ :=
  let c := civilFromDays d.toNat
  12 * c.1 + (c.2.1 - 1)

/-- Models `format(firstDayOfMonth, "MMMM yyyy")` for a month index. -/
def fmtMMMMyyyy (mi : ℕ) : String := monthLong (mi % 12 + 1) ++ " " ++ toString (mi / 12)

/-- Models `date-fns` `startOfMonth` on day numbers. -/
def startOfMonthDay (d : ℤ) : ℤ :=
  let c := civilFromDays d.toNat
  (daysFromCivil c.1 c.2.1 1 : ℤ)

/-- Models `date-fns` `endOfMonth` on day numbers. -/
def endOfMonthDay (d : ℤ) : ℤ :=
  let c := civilFromDays d.toNat
  ((if c.2.1 = 12 then daysFromCivil (c.1 + 1) 1 1 else daysFromCivil c.1 (c.2.1 + 1) 1) : ℤ) - 1

/-! ### Data model (`shared/schema.ts`)

`time_entries` rows.  `totalHours` is the nullable `decimal` column read
back through `Number(...)`, embedded as `Option ℚ`; `checkOutTime` and
`breakMinutes` are the nullable columns. -/

/-- A `time_entries` row. -/
structure TimeEntry where
  id : ℕ
  employeeId : ℕ
  date : ℤ
  checkInTime : String
  checkOutTime : Option String
  breakMinutes : Option ℤ
  totalHours : Option ℚ
  deriving DecidableEq

/-- An `employees` row (the fields the specified core reads). -/
structure Employee where
  id : ℕ
  name : String
  status : String
  deriving DecidableEq

/-- The payload accepted by `createTimeEntry` (`InsertTimeEntry`);
`totalHours` may be smuggled in by a caller since the insert schema
carries every column. -/
structure InsertTimeEntry where
  employeeId : ℕ
  date : ℤ
  checkInTime : String
  checkOutTime : Option String := none
  breakMinutes : Option ℤ := none
  totalHours : Option ℚ := none
  deriving DecidableEq

/-- A `Partial<InsertTimeEntry>` update payload: `none` means the field
is absent from the patch. -/
structure UpdateData where
  employeeId : Option ℕ := none
  date : Option ℤ := none
  checkInTime : Option String := none
  checkOutTime : Option String := none
  breakMinutes : Option ℤ := none
  totalHours : Option (Option ℚ) := none
  deriving DecidableEq

/-- The `time_entries` table plus the serial-id counter. -/
structure Store where
  entries : List TimeEntry
  nextId : ℕ
  deriving DecidableEq

/-! ### JS truthiness and object-as-map helpers -/

/-- JS truthiness of a nullable number (`null` and `0` are falsy). -/
def truthyQ : Option ℚ → Bool
  | none => false
  | some q => q != 0

/-- JS truthiness of a nullable string (`null`/`undefined` and `""` are
falsy). -/
def truthyStr : Option String → Bool
  | none => false
  | some s => s != ""

/-- JS `a || b` for an optional string `a` and defined fallback. -/
def jsOrStr (a : Option String) (b : String) : String :=
  match a with
  | some s => if s = "" then b else s
  | none => b

/-- JS `a || b` where the fallback is itself nullable
(`data.checkOutTime || currentEntry.checkOutTime`). -/
def jsOrOptStr (a : Option String) (b : Option String) : Option String :=
  match a with
  | some s => if s = "" then b else some s
  | none => b

/-- Lookup in a JS object used as a map, with the `|| 0` default. -/
def lookupD : List (String × ℚ) → String → ℚ
  | [], _ => 0
  | (k1, v1) :: rest, k => if k1 = k then v1 else lookupD rest k

/-- JS object assignment `obj[k] = v` on the association-list model. -/
def setVal : List (String × ℚ) → String → ℚ → List (String × ℚ)
  | [], k, v => [(k, v)]
  | (k1, v1) :: rest, k, v =>
    if k1 = k then (k, v) :: rest else (k1, v1) :: setVal rest k v

/-! ### Report aggregation engine (`DatabaseStorage`, `server/storage.ts`) -/

/-- One point of the chart series: the map key (`"yyyy-MM-dd"` of the
day / of the week's Monday, or `"yyyy-MM"`; embedded as the day or month
number it encodes), the human label, and the per-employee hour map. -/
structure Bucket where
  key : ℤ
  label : String
  values : List (String × ℚ)
  deriving DecidableEq

/-- The `if (employeeId) whereClause.push(eq(..employeeId..))` filter:
applied only when the id is present and truthy (nonzero). -/
def empFilter (employeeId : Option ℕ) (t : TimeEntry) : Bool :=
  match employeeId with
  | none => true
  | some i => if i = 0 then true else t.employeeId == i

/-- The `between(timeEntries.date, startOfDay(a), endOfDay(b))` clause on
date-only rows. -/
def inRange (a b : ℤ) (t : TimeEntry) : Bool := a ≤ t.date && t.date ≤ b

/-- One entry's effect on one bucket:
`dateData.values[empId] = (dateData.values[empId] || 0) + Number(entry.totalHours)`
guarded by the key comparison. -/
def bump1 (k : ℤ) (e : TimeEntry) (b : Bucket) : Bucket :=
  if b.key = k then
    let empKey := toString e.employeeId
    let v := lookupD b.values empKey + e.totalHours.getD 0
    { b with values := setVal b.values empKey v }
  else b

/-- The body of the population loop shared by the three report shapes:
entries with a falsy `totalHours` are skipped (`if (!entry.totalHours)
continue`), others are added to the bucket whose key covers their date
(`keyOf`); an entry whose key has no bucket is dropped
(`if (dateData)`). -/
def chartStep (keyOf : ℤ → ℤ) (bs : List Bucket) (e : TimeEntry) : List Bucket :=
  if truthyQ e.totalHours then bs.map (bump1 (keyOf e.date) e) else bs

/-- Models `DatabaseStorage.getDailyReportData`: one pre-initialised empty bucket
per day of `[startDate, endDate]`, then the population loop. -/
def getDailyReportData (db : List TimeEntry) (startDate endDate : ℤ)
    (employeeId : Option ℕ) : List Bucket :=
  let entries := db.filter fun t => inRange startDate endDate t && empFilter employeeId t
  let init := (List.range (endDate + 1 - startDate).toNat).map fun (i : ℕ) =>
    ({ key := startDate + (i : ℤ), label := fmtEEEMMMd (startDate + (i : ℤ)),
       values := [] } : Bucket)
  entries.foldl (chartStep fun d => d) init

/-- The weekly bucket for the week starting at Monday `w`. -/
def mkWeekBucket (w : ℤ) : Bucket :=
  { key := w, label := fmtMMMd w ++ " - " ++ fmtMMMd (w + 6), values := [] }

/-- The weekly-report initialisation loop: starting from
`adjustedStart`, step 7 days while `current ≤ adjustedEnd`, adding a
bucket for `startOfWeek(current)` unless its key was already seen. -/
def weekBucketsFrom (current adjEnd : ℤ) (seen : List ℤ) : List Bucket :=
  if current ≤ adjEnd then
    let weekStart := startOfWeekMon current
    if weekStart ∈ seen then weekBucketsFrom (current + 7) adjEnd seen
    else mkWeekBucket weekStart :: weekBucketsFrom (current + 7) adjEnd (weekStart :: seen)
  else []
termination_by (adjEnd + 1 - current).toNat
decreasing_by all_goals omega

/-- Models `DatabaseStorage.getWeeklyReportData`: the range is widened to full
Monday-start weeks, buckets are keyed by the week's Monday, and entries
are added to the bucket of `startOfWeek(entry.date)`. -/
def getWeeklyReportData (db : List TimeEntry) (startDate endDate : ℤ)
    (employeeId : Option ℕ) : List Bucket :=
  let adjustedStart := startOfWeekMon startDate
  let adjustedEnd := startOfWeekMon endDate + 6
  let entries := db.filter fun t => inRange adjustedStart adjustedEnd t && empFilter employeeId t
  let init := weekBucketsFrom adjustedStart adjustedEnd []
  entries.foldl (chartStep startOfWeekMon) init

/-- Models `DatabaseStorage.getMonthlyReportData`: the range is widened to full
calendar months; the `setMonth(+1)` initialisation loop visits exactly
the months of `[startDate, endDate]`, in month-index space. -/
def getMonthlyReportData (db : List TimeEntry) (startDate endDate : ℤ)
    (employeeId : Option ℕ) : List Bucket :=
  let adjustedStart := startOfMonthDay startDate
  let adjustedEnd := endOfMonthDay endDate
  let entries := db.filter fun t => inRange adjustedStart adjustedEnd t && empFilter employeeId t
  let init := (List.range (monthIndex endDate + 1 - monthIndex startDate)).map fun k =>
    ({ key := (monthIndex startDate + k : ℕ), label := fmtMMMMyyyy (monthIndex startDate + k),
       values := [] } : Bucket)
  entries.foldl (chartStep fun d => (monthIndex d : ℤ)) init

/-- Models `DatabaseStorage.getCustomReportData` simply delegates to the daily
report. -/
def getCustomReportData (db : List TimeEntry) (startDate endDate : ℤ)
    (employeeId : Option ℕ) : List Bucket :=
  getDailyReportData db startDate endDate employeeId

/-- One row of the per-employee summary table. -/
structure SummaryRow where
  employeeId : ℕ
  employeeName : String
  totalDays : ℕ
  totalHours : ℚ
  avgDailyHours : ℚ
  totalBreakMinutes : ℤ
  deriving DecidableEq

/-- The grand-totals row. -/
structure Totals where
  totalDays : ℕ
  totalHours : ℚ
  avgDailyHours : ℚ
  totalBreakMinutes : ℤ
  deriving DecidableEq

/-- Models `DatabaseStorage.getEmployeeSummaryData`: scope is the filtered
employee (any status) or else all active employees; employees with no
entries in range are skipped; `totalDays` counts entries with non-null
total hours, the sums use JS truthiness / `|| 0` defaults. -/
def getEmployeeSummaryData (db : List TimeEntry) (emps : List Employee)
    (startDate endDate : ℤ) (employeeId : Option ℕ) : List SummaryRow :=
  let employeesToReport : List Employee :=
    match employeeId with
    | some i =>
      if i = 0 then emps.filter fun emp => emp.status == "active"
      else ((emps.find? fun emp => emp.id == i).map fun e => [e]).getD []
    | none => emps.filter fun emp => emp.status == "active"
  employeesToReport.foldr (fun (emp : Employee) (acc : List SummaryRow) =>
    let entries := db.filter fun t => t.employeeId == emp.id && inRange startDate endDate t
    if entries.isEmpty then acc
    else
      let workingDays := (entries.filter fun t => t.totalHours ≠ none).length
      let totalHours := (entries.map fun t => if truthyQ t.totalHours then t.totalHours.getD 0 else 0).sum
      let totalBreakMinutes := (entries.map fun t => t.breakMinutes.getD 0).sum
      { employeeId := emp.id, employeeName := emp.name, totalDays := workingDays,
        totalHours := totalHours,
        avgDailyHours := if 0 < workingDays then totalHours / workingDays else 0,
        totalBreakMinutes := totalBreakMinutes } :: acc) []

/-- A generated report (`generateReport`'s result, less the echoed
employee list and date range). -/
structure Report where
  title : String
  chartData : List Bucket
  summaryData : List SummaryRow
  employeeTotals : Totals
  deriving DecidableEq

/-- Models `DatabaseStorage.generateReport` with the date range already
resolved (the trailing-7-days default for absent bounds is applied by
the caller against the current date). -/
def generateReport (db : List TimeEntry) (emps : List Employee)
    (reportType : String) (startDate endDate : ℤ) (employeeId : Option ℕ) : Report :=
  let chartPair :=
    if reportType = "daily" then
      ("Daily Summary", getDailyReportData db startDate endDate employeeId)
    else if reportType = "weekly" then
      ("Weekly Summary", getWeeklyReportData db startDate endDate employeeId)
    else if reportType = "monthly" then
      ("Monthly Summary", getMonthlyReportData db startDate endDate employeeId)
    else
      ("Custom Range Summary", getCustomReportData db startDate endDate employeeId)
  let summaryData := getEmployeeSummaryData db emps startDate endDate employeeId
  let employeeTotals :=
    if 0 < summaryData.length then
      let totalDays := (summaryData.map fun r => r.totalDays).sum
      let totalHours := (summaryData.map fun r => r.totalHours).sum
      let totalBreakMinutes := (summaryData.map fun r => r.totalBreakMinutes).sum
      { totalDays := totalDays, totalHours := totalHours,
        avgDailyHours := if 0 < totalDays then totalHours / totalDays else 0,
        totalBreakMinutes := totalBreakMinutes : Totals }
    else { totalDays := 0, totalHours := 0, avgDailyHours := 0, totalBreakMinutes := 0 }
  { title := chartPair.1, chartData := chartPair.2,
    summaryData := summaryData, employeeTotals := employeeTotals }

/-! ### Dashboard statistics engine -/

/-- Models `toFixed(2)` followed by `parseFloat`: round to 2 decimal places. -/
def round2 (q : ℚ) : ℚ := (round (q * 100) : ℤ) / 100

/-- The `DashboardStats` record. -/
structure DashboardStats where
  totalHours : ℚ
  activeEmployees : ℕ
  checkedInCount : ℕ
  avgHoursPerEmployee : ℚ
  weeklyAvgHours : ℚ
  deriving DecidableEq

/-- Models `DatabaseStorage.getDashboardStats`. -/
def getDashboardStats (db : List TimeEntry) (emps : List Employee)
    (date : ℤ) : DashboardStats :=
  let todayEntries := db.filter fun t => t.date == date
  let totalHours := (todayEntries.map fun t => if truthyQ t.totalHours then t.totalHours.getD 0 else 0).sum
  let activeEmployees := emps.filter fun emp => emp.status == "active"
  let checkedInCount := (todayEntries.filter fun t => !truthyStr t.checkOutTime).length
  let avgHoursPerEmployee :=
    if 0 < activeEmployees.length then totalHours / activeEmployees.length else 0
  let weekStart := startOfWeekMon date
  let weekEnd := startOfWeekMon date + 6
  let weekEntries := db.filter fun t => inRange weekStart weekEnd t
  let weeklyTotalHours := (weekEntries.map fun t => if truthyQ t.totalHours then t.totalHours.getD 0 else 0).sum
  let workDaysInWeek : ℕ := 5
  let weeklyAvgHours :=
    if 0 < activeEmployees.length then
      weeklyTotalHours / (activeEmployees.length * workDaysInWeek)
    else 0
  { totalHours := round2 totalHours,
    activeEmployees := activeEmployees.length,
    checkedInCount := checkedInCount,
    avgHoursPerEmployee := round2 avgHoursPerEmployee,
    weeklyAvgHours := round2 weeklyAvgHours }

/-! ### Time-entry CRUD (`DatabaseStorage`) -/

/-- Models `DatabaseStorage.createTimeEntry` as a pure row constructor: total
hours are computed iff a (truthy) check-out time was supplied, the time
strings are formatted to 12-hour form before storing, the caller's
`totalHours` (if any) is overridden, and an absent `breakMinutes` falls
back to the column default `0`. -/
def createTimeEntry (data : InsertTimeEntry) (id : ℕ) : TimeEntry :=
  let totalHoursValue : Option ℚ :=
    if truthyStr data.checkOutTime then
      calculateTotalHours data.checkInTime (data.checkOutTime.getD "")
        (data.breakMinutes.getD 0)
    else none
  let formattedCheckInTime := formatTime data.checkInTime
  let formattedCheckOutTime :=
    if truthyStr data.checkOutTime then some (formatTime (data.checkOutTime.getD ""))
    else none
  { id := id, employeeId := data.employeeId, date := data.date,
    checkInTime := formattedCheckInTime,
    checkOutTime := formattedCheckOutTime,
    breakMinutes := some (data.breakMinutes.getD 0),
    totalHours := totalHoursValue }

/-- Models `createTimeEntry` against the store (`db.insert(..).returning()`). -/
def createTimeEntryStore (data : InsertTimeEntry) (st : Store) : TimeEntry × Store :=
  let t := createTimeEntry data st.nextId
  (t, { entries := st.entries ++ [t], nextId := st.nextId + 1 })

/-- The update row built by `DatabaseStorage.updateTimeEntry` from the
current row and a partial patch: merged (`data.x || current.x`) times
decide whether total hours are recomputed; patched time strings are
stored 12-hour formatted only when truthy; a caller-supplied
`totalHours` survives from the `{...data}` spread unless the recompute
overwrites it. -/
def applyUpdate (current : TimeEntry) (data : UpdateData) : TimeEntry :=
  let checkInTime := jsOrStr data.checkInTime current.checkInTime
  let checkOutTime := jsOrOptStr data.checkOutTime current.checkOutTime
  let breakMinutes := match data.breakMinutes with
    | some b => some b
    | none => current.breakMinutes
  let recomputed : Option (Option ℚ) :=
    if checkInTime ≠ "" ∧ truthyStr checkOutTime then
      some (calculateTotalHours checkInTime (checkOutTime.getD "") (breakMinutes.getD 0))
    else none
  { id := current.id,
    employeeId := data.employeeId.getD current.employeeId,
    date := data.date.getD current.date,
    checkInTime := match data.checkInTime with
      | some s => if s ≠ "" then formatTime s else s
      | none => current.checkInTime,
    checkOutTime := match data.checkOutTime with
      | some s => if s ≠ "" then some (formatTime s) else some s
      | none => current.checkOutTime,
    breakMinutes := breakMinutes,
    totalHours := match recomputed with
      | some th => th
      | none => match data.totalHours with
        | some q => q
        | none => current.totalHours }

/-- Models `DatabaseStorage.updateTimeEntry`: `undefined` when the row does not
exist, otherwise the patched row is stored and returned. -/
def updateTimeEntry (id : ℕ) (data : UpdateData) (st : Store) :
    Option TimeEntry × Store :=
  match st.entries.find? fun t => t.id == id with
  | none => (none, st)
  | some current =>
    let updated := applyUpdate current data
    (some updated,
     { st with entries := st.entries.map fun t => if t.id = id then updated else t })

/-- Models `DatabaseStorage.deleteTimeEntry`: unconditional
`db.delete(..).where(eq(id))`. -/
def deleteTimeEntry (id : ℕ) (st : Store) : Store :=
  { st with entries := st.entries.filter fun t => t.id ≠ id }

/-- Models `DatabaseStorage.checkoutTimeEntry`: `undefined` when the row is
missing or already has a (truthy) check-out time; otherwise delegates to
`updateTimeEntry` with the current wall-clock time `now`. -/
def checkoutTimeEntry (id : ℕ) (now : String) (st : Store) :
    Option TimeEntry × Store :=
  match st.entries.find? fun t => t.id == id with
  | none => (none, st)
  | some entry =>
    if truthyStr entry.checkOutTime then (none, st)
    else updateTimeEntry id { checkOutTime := some now } st

/-! ### HTTP route handlers (`server/routes.ts`)

Each handler is modelled on the path where authentication succeeded and
the request date (if any) parsed to a valid `Date`; the result is the
HTTP status code paired with the store after the request. -/

/-- Body of `POST /api/time-entries` after the route's field coercions
(`Number(...)`, `data.checkOutTime || undefined`). -/
structure PostBody where
  employeeId : ℕ
  date : ℤ
  checkInTime : String
  checkOutTime : Option String := none
  breakMinutes : ℤ := 0
  deriving DecidableEq

/-- Models `POST /api/time-entries`: weekend dates are rejected with 400 before
any store access; otherwise the entry is created and 201 returned. -/
def postTimeEntry (body : PostBody) (st : Store) : ℕ × Store :=
  if isWeekend body.date then (400, st)
  else
    let created := createTimeEntryStore
      { employeeId := body.employeeId, date := body.date,
        checkInTime := body.checkInTime, checkOutTime := body.checkOutTime,
        breakMinutes := some body.breakMinutes, totalHours := none } st
    (201, created.2)

/-- Body of `PATCH /api/time-entries/:id` after the route's per-field
processing (`none` = field absent; the route maps a falsy
`checkOutTime` to `undefined` and never forwards `totalHours`). -/
structure PatchBody where
  employeeId : Option ℕ := none
  date : Option ℤ := none
  checkInTime : Option String := none
  checkOutTime : Option String := none
  breakMinutes : Option ℤ := none
  deriving DecidableEq

/-- Models `PATCH /api/time-entries/:id`: a weekend date in the patch is
rejected with 400 before any store access; otherwise the entry is
updated (404 when absent). -/
def patchTimeEntry (id : ℕ) (body : PatchBody) (st : Store) : ℕ × Store :=
  let weekendReject := match body.date with
    | some d => isWeekend d
    | none => false
  if weekendReject then (400, st)
  else
    let data : UpdateData :=
      { employeeId := body.employeeId, date := body.date,
        checkInTime := body.checkInTime,
        checkOutTime := match body.checkOutTime with
          | some s => if s = "" then none else some s
          | none => none,
        breakMinutes := body.breakMinutes, totalHours := none }
    match updateTimeEntry id data st with
    | (none, st1) => (404, st1)
    | (some _, st1) => (200, st1)

/-- Models `DELETE /api/time-entries/:id`: always deletes (no existence check)
and answers 204. -/
def deleteTimeEntryRoute (id : ℕ) (st : Store) : ℕ × Store :=
  (204, deleteTimeEntry id st)

/-! ### Helper lemmas -/

/-- The spec-side employee matcher: an entry matches a given filter iff
it belongs to that employee. -/
def empMatch (employeeId : Option ℕ) (t : TimeEntry) : Bool :=
  match employeeId with
  | none => true
  | some i => t.employeeId == i

/-- For a filter that is absent or names a nonzero id, the code's
truthiness-guarded filter agrees with the spec-side matcher. -/
theorem empFilter_eq_empMatch {f : Option ℕ} (hf : f = none ∨ ∃ i, f = some i ∧ i ≠ 0)
    (t : TimeEntry) : empFilter f t = empMatch f t := by
  rcases hf with h | ⟨i, h, hi⟩ <;> subst h <;> simp [empFilter, empMatch]
  intro h; exact absurd h hi

theorem lookupD_setVal (vs : List (String × ℚ)) (k0 s : String) (v : ℚ) :
    lookupD (setVal vs k0 v) s = if k0 = s then v else lookupD vs s := by
  induction vs with
  | nil => simp [setVal, lookupD]
  | cons p rest ih =>
    obtain ⟨k1, v1⟩ := p
    by_cases h1 : k1 = k0
    · subst h1
      by_cases h2 : k1 = s <;> simp [setVal, lookupD, h2]
    · by_cases h2 : k1 = s
      · subst h2
        have : ¬ k0 = k1 := fun h => h1 h.symm
        simp [setVal, lookupD, h1, this]
      · simp [setVal, lookupD, h1, h2, ih]

/-- Per-bucket view of the population loop: the effect of one entry on
the value map of the bucket with key `k`. -/
def valStep (keyOf : ℤ → ℤ) (k : ℤ) (vs : List (String × ℚ)) (e : TimeEntry) :
    List (String × ℚ) :=
  if truthyQ e.totalHours ∧ keyOf e.date = k then
    setVal vs (toString e.employeeId) (lookupD vs (toString e.employeeId) + e.totalHours.getD 0)
  else vs

theorem bump1_as_valStep (keyOf : ℤ → ℤ) (e : TimeEntry) (b : Bucket)
    (ht : truthyQ e.totalHours = true) :
    bump1 (keyOf e.date) e b = { b with values := valStep keyOf b.key b.values e } := by
  by_cases h : b.key = keyOf e.date
  · simp [bump1, valStep, h, ht]
  · have h' : ¬ keyOf e.date = b.key := fun hh => h hh.symm
    simp [bump1, valStep, h, h', ht]

/-- The population fold acts on every bucket independently. -/
theorem chartFold_char (keyOf : ℤ → ℤ) (es : List TimeEntry) (bs : List Bucket) :
    es.foldl (chartStep keyOf) bs =
      bs.map fun b => { b with values := es.foldl (valStep keyOf b.key) b.values } := by
  induction es generalizing bs with
  | nil =>
    simp only [List.foldl_nil]
    have : (fun (b : Bucket) => { b with values := b.values }) = id := by
      funext b; rfl
    simp [this]
  | cons e es ih =>
    simp only [List.foldl_cons]
    rw [ih]
    by_cases ht : truthyQ e.totalHours = true
    · simp only [chartStep, ht, if_true, List.map_map]
      refine List.map_congr_left fun b _ => ?_
      simp only [Function.comp_apply]
      rw [bump1_as_valStep keyOf e b ht]
    · have ht' : truthyQ e.totalHours = false := by simpa using ht
      simp only [chartStep, ht', Bool.false_eq_true, if_false]
      refine List.map_congr_left fun b _ => ?_
      simp [valStep, ht']

/-- Buckets untouched by every entry keep their initial value map. -/
theorem valStep_fold_untouched (keyOf : ℤ → ℤ) (k : ℤ) (es : List TimeEntry)
    (vs : List (String × ℚ))
    (h : ∀ e ∈ es, ¬(truthyQ e.totalHours = true ∧ keyOf e.date = k)) :
    es.foldl (valStep keyOf k) vs = vs := by
  induction es generalizing vs with
  | nil => rfl
  | cons e es ih =>
    have he := h e (List.mem_cons_self e es)
    have : valStep keyOf k vs e = vs := by
      simp only [valStep]
      rw [if_neg]
      exact fun hc => he ⟨hc.1, hc.2⟩
    simp only [List.foldl_cons, this]
    exact ih _ fun e' he' => h e' (List.mem_cons_of_mem _ he')

/-- The value a key holds after the population fold: its initial value
plus the hours of every matching entry. -/
theorem valStep_fold_lookup (keyOf : ℤ → ℤ) (k : ℤ) (es : List TimeEntry)
    (vs : List (String × ℚ)) (s : String) :
    lookupD (es.foldl (valStep keyOf k) vs) s =
      lookupD vs s +
        ((es.filter fun e =>
            truthyQ e.totalHours && (keyOf e.date == k) && (toString e.employeeId == s)).map
          fun e => e.totalHours.getD 0).sum := by
  induction es generalizing vs with
  | nil => simp
  | cons e es ih =>
    simp only [List.foldl_cons, List.filter_cons]
    by_cases hc : truthyQ e.totalHours = true ∧ keyOf e.date = k
    · have hstep : valStep keyOf k vs e =
          setVal vs (toString e.employeeId)
            (lookupD vs (toString e.employeeId) + e.totalHours.getD 0) := by
        simp [valStep, hc.1, hc.2]
      rw [hstep, ih]
      by_cases hs : toString e.employeeId = s
      · subst hs
        simp [hc.1, hc.2, lookupD_setVal, add_assoc, add_comm (e.totalHours.getD 0)]
      · have : (truthyQ e.totalHours && (keyOf e.date == k) &&
            (toString e.employeeId == s)) = false := by
          simp [hs]
        simp [this, lookupD_setVal, hs]
    · have hstep : valStep keyOf k vs e = vs := by
        simp only [valStep]; exact if_neg hc
      have hfilt : (truthyQ e.totalHours && (keyOf e.date == k) &&
          (toString e.employeeId == s)) = false := by
        rcases Decidable.not_and_iff_or_not.mp hc with h | h
        · simp [Bool.eq_false_iff.mpr h]
        · simp [h]
      rw [hstep, ih, hfilt]
      simp

theorem startOfWeekMon_fixed {a : ℤ} (h : a % 7 = 4) : startOfWeekMon a = a := by
  unfold startOfWeekMon; omega

theorem startOfWeekMon_mod {d : ℤ} : startOfWeekMon d % 7 = 4 := by
  unfold startOfWeekMon; omega

theorem startOfWeekMon_le (d : ℤ) : startOfWeekMon d ≤ d := by
  unfold startOfWeekMon; omega

theorem le_startOfWeekMon_add (d : ℤ) : d ≤ startOfWeekMon d + 6 := by
  unfold startOfWeekMon; omega

theorem startOfWeekMon_mono {a b : ℤ} (h : a ≤ b) :
    startOfWeekMon a ≤ startOfWeekMon b := by
  unfold startOfWeekMon; omega

/-- The weekly initialisation loop started at a Monday `a` yields one
bucket per week, in order. -/
theorem weekBucketsFrom_eq (n : ℕ) : ∀ (a : ℤ) (seen : List ℤ), a % 7 = 4 →
    (∀ x ∈ seen, x < a) →
    weekBucketsFrom a (a + 7 * n + 6) seen =
      (List.range (n + 1)).map fun (k : ℕ) => mkWeekBucket (a + 7 * (k : ℤ)) := by
  induction n with
  | zero =>
    intro a seen ha hseen
    rw [weekBucketsFrom]
    rw [if_pos (by omega)]
    rw [startOfWeekMon_fixed ha]
    rw [if_neg (fun hmem => absurd (hseen a hmem) (by omega))]
    rw [weekBucketsFrom]
    rw [if_neg (by omega)]
    simp [List.range_succ]
  | succ m ih =>
    intro a seen ha hseen
    rw [weekBucketsFrom]
    rw [if_pos (by omega)]
    rw [startOfWeekMon_fixed ha]
    rw [if_neg (fun hmem => absurd (hseen a hmem) (by omega))]
    have harith : a + 7 * ((m : ℕ) + 1 : ℕ) + 6 = (a + 7) + 7 * m + 6 := by
      push_cast; ring
    rw [harith]
    rw [ih (a + 7) (a :: seen) (by omega)
      (by intro x hx; rcases List.mem_cons.mp hx with h | h
          · omega
          · exact lt_of_lt_of_le (hseen x h) (by omega))]
    conv_rhs => rw [List.range_succ_eq_map]
    simp only [List.map_cons, List.map_map, Nat.cast_zero, mul_zero, add_zero]
    congr 1
    refine List.map_congr_left fun k _ => ?_
    simp only [Function.comp_apply]
    congr 1
    push_cast
    ring

/-- Skipping falsy total-hours values is invisible to the hour sums:
summing over entries with truthy totals equals summing over entries with
non-null totals. -/
theorem sum_truthy_eq_sum_isSome (l : List TimeEntry) (p : TimeEntry → Bool) :
    ((l.filter fun t => truthyQ t.totalHours && p t).map fun t => t.totalHours.getD 0).sum =
      ((l.filter fun t => t.totalHours.isSome && p t).map fun t => t.totalHours.getD 0).sum := by
  induction l with
  | nil => rfl
  | cons t l ih =>
    rw [List.filter_cons, List.filter_cons]
    cases htot : t.totalHours with
    | none =>
      have h1 : (truthyQ none && p t) = false := rfl
      have h2 : ((none : Option ℚ).isSome && p t) = false := rfl
      rw [h1, h2]
      simpa using ih
    | some q =>
      have h2 : ((some q : Option ℚ).isSome && p t) = p t := by simp
      by_cases hq : q = 0
      · have h1 : (truthyQ (some q) && p t) = false := by
          simp [truthyQ, hq]
        rw [h1, h2]
        by_cases hp : p t = true
        · rw [hp]
          have hval : t.totalHours.getD 0 = 0 := by simp [htot, hq]
          simpa [hval] using ih
        · rw [Bool.eq_false_iff.mpr hp]
          simpa using ih
      · have h1 : (truthyQ (some q) && p t) = p t := by
          simp [truthyQ, hq]
        rw [h1, h2]
        by_cases hp : p t = true
        · rw [hp]
          simpa using ih
        · rw [Bool.eq_false_iff.mpr hp]
          simpa using ih

/-- The `acc + (curr.totalHours ? Number(curr.totalHours) : 0)` reduce is
the sum of the non-null total hours. -/
theorem sum_ternary_eq_sum_isSome (l : List TimeEntry) :
    (l.map fun t => if truthyQ t.totalHours then t.totalHours.getD 0 else 0).sum =
      ((l.filter fun t => t.totalHours.isSome).map fun t => t.totalHours.getD 0).sum := by
  induction l with
  | nil => rfl
  | cons t l ih =>
    rw [List.map_cons, List.sum_cons, List.filter_cons]
    cases htot : t.totalHours with
    | none =>
      have hhead : (if truthyQ none = true then (none : Option ℚ).getD 0 else 0) = 0 := rfl
      rw [hhead, ih]
      have h2 : ((none : Option ℚ).isSome) = false := rfl
      rw [h2]
      simp
    | some q =>
      have h2 : ((some q : Option ℚ).isSome) = true := rfl
      rw [h2]
      by_cases hq : q = 0
      · have hhead : (if truthyQ (some q) = true then (some q).getD 0 else 0) = 0 := by
          simp [truthyQ, hq]
        rw [hhead, ih]
        simp [htot, hq]
      · have hhead : (if truthyQ (some q) = true then (some q).getD 0 else 0) =
            (some q).getD 0 := by
          simp [truthyQ, hq]
        rw [hhead, ih]
        simp [htot]

/-- Two filters select the same hour sum when the first implies the
second and any entry kept only by the second carries zero hours. -/
theorem sum_filter_congr_zero (l : List TimeEntry) (P Q : TimeEntry → Bool)
    (h1 : ∀ t, P t = true → Q t = true)
    (h2 : ∀ t, Q t = true → P t = false → t.totalHours.getD 0 = 0) :
    ((l.filter P).map fun t => t.totalHours.getD 0).sum =
      ((l.filter Q).map fun t => t.totalHours.getD 0).sum := by
  induction l with
  | nil => rfl
  | cons t l ih =>
    rw [List.filter_cons, List.filter_cons]
    by_cases hP : P t = true
    · rw [hP, h1 t hP]
      simp [ih]
    · have hP' : P t = false := by simpa using hP
      rw [hP']
      by_cases hQ : Q t = true
      · rw [hQ]
        have h0 := h2 t hQ hP'
        simp [ih, h0]
      · have hQ' : Q t = false := by simpa using hQ
        rw [hQ']
        simp [ih]

/-- Every bucket created by the weekly initialisation loop starts with an
empty value map. -/
theorem weekBucketsFrom_values (current adjEnd : ℤ) (seen : List ℤ) :
    ∀ b ∈ weekBucketsFrom current adjEnd seen, b.values = [] := by
  by_cases h : current ≤ adjEnd
  · rw [weekBucketsFrom, if_pos h]
    by_cases hmem : startOfWeekMon current ∈ seen
    · rw [if_pos hmem]
      exact weekBucketsFrom_values (current + 7) adjEnd seen
    · rw [if_neg hmem]
      intro b hb
      rcases List.mem_cons.mp hb with hb | hb
      · subst hb; rfl
      · exact weekBucketsFrom_values (current + 7) adjEnd _ b hb
  · rw [weekBucketsFrom, if_neg h]
    intro b hb
    cases hb
termination_by (adjEnd + 1 - current).toNat
decreasing_by all_goals omega

/-! ### Claim theorems -/

/-- C1: `calculateTotalHours(c, o, b)` is `null` when either time string
is missing/empty; otherwise, when `toMinutes(o) − toMinutes(c) ≤ 0` it
returns `(1440 + toMinutes(o) − toMinutes(c) − b) / 60` (a single
midnight-wrap correction), and when the difference is positive it returns
`(toMinutes(o) − toMinutes(c) − b) / 60`; in particular
`calculateTotalHours("22:00","06:00",0) = 8.0` and
`calculateTotalHours("09:00","17:30",30) = 8.0`. -/
theorem claim1_calculateTotalHours (c o : String) (b : ℤ) :
    (c = "" ∨ o = "" → calculateTotalHours c o b = none)
    ∧ (c ≠ "" → o ≠ "" →
        calculateTotalHours c o b =
          some (if (timeToMinutes o : ℤ) - (timeToMinutes c : ℤ) ≤ 0 then
              ((1440 + (timeToMinutes o : ℤ) - (timeToMinutes c : ℤ) - b : ℤ) : ℚ) / 60
            else
              (((timeToMinutes o : ℤ) - (timeToMinutes c : ℤ) - b : ℤ) : ℚ) / 60))
    ∧ calculateTotalHours "22:00" "06:00" 0 = some 8
    ∧ calculateTotalHours "09:00" "17:30" 30 = some 8 := by
  refine ⟨?_, ?_, ?_, ?_⟩
  · rintro (hc | ho)
    · simp [calculateTotalHours, hc]
    · simp [calculateTotalHours, ho]
  · intro hc ho
    rw [calculateTotalHours]
    rw [if_neg (by simp [hc, ho])]
    by_cases hle : (timeToMinutes o : ℤ) ≤ (timeToMinutes c : ℤ)
    · rw [if_pos hle, if_pos (by omega)]
      norm_num
    · rw [if_neg hle, if_neg (by omega)]
  · have h1 : timeToMinutes "22:00" = 1320 := by decide
    have h2 : timeToMinutes "06:00" = 360 := by decide
    norm_num +decide [calculateTotalHours, h1, h2]
  · have h1 : timeToMinutes "09:00" = 540 := by decide
    have h2 : timeToMinutes "17:30" = 1050 := by decide
    norm_num +decide [calculateTotalHours, h1, h2]

/-- Witness for C1, instantiated at the midnight-wrap example. -/
theorem claim1_calculateTotalHours_witness :
    ("22:00" : String) ≠ "" ∧ ("06:00" : String) ≠ "" ∧
      calculateTotalHours "22:00" "06:00" 0 =
        some (if (timeToMinutes "06:00" : ℤ) - (timeToMinutes "22:00" : ℤ) ≤ 0 then
            ((1440 + (timeToMinutes "06:00" : ℤ) - (timeToMinutes "22:00" : ℤ) - 0 : ℤ) : ℚ) / 60
          else
            (((timeToMinutes "06:00" : ℤ) - (timeToMinutes "22:00" : ℤ) - 0 : ℤ) : ℚ) / 60) :=
  ⟨by decide, by decide,
    (claim1_calculateTotalHours "22:00" "06:00" 0).2.1 (by decide) (by decide)⟩

/-- C8: a create or update request whose date falls on a Saturday or
Sunday is rejected with HTTP 400 regardless of the other fields, and the
store is left untouched. -/
theorem claim8_weekendRejected :
    (∀ (body : PostBody) (st : Store), isWeekend body.date = true →
        postTimeEntry body st = (400, st))
    ∧ ∀ (id : ℕ) (body : PatchBody) (st : Store) (d : ℤ),
        body.date = some d → isWeekend d = true →
        patchTimeEntry id body st = (400, st) := by
  constructor
  · intro body st hw
    simp [postTimeEntry, hw]
  · intro id body st d hd hw
    simp [patchTimeEntry, hd, hw]

/-- Witness for C8: day 20001 (a Saturday) is rejected by both routes. -/
theorem claim8_weekendRejected_witness :
    isWeekend 20001 = true ∧
      postTimeEntry { employeeId := 1, date := 20001, checkInTime := "09:00" }
        { entries := [], nextId := 1 } = (400, { entries := [], nextId := 1 })
      ∧ patchTimeEntry 1 { date := some 20001 } { entries := [], nextId := 1 } =
          (400, { entries := [], nextId := 1 }) :=
  ⟨by decide,
    claim8_weekendRejected.1 _ _ (by decide),
    claim8_weekendRejected.2 1 _ _ 20001 rfl (by decide)⟩

/-- C9: `checkoutTimeEntry` on an entry that already has a (truthy)
check-out time returns `undefined` and leaves the store — in particular
that entry's `checkOutTime` and `totalHours` — unchanged. -/
theorem claim9_checkoutClosedNoop (st : Store) (id : ℕ) (now : String) (t : TimeEntry)
    (hfind : (st.entries.find? fun u => u.id == id) = some t)
    (hclosed : truthyStr t.checkOutTime = true) :
    checkoutTimeEntry id now st = (none, st) := by
  simp [checkoutTimeEntry, hfind, hclosed]

/-- A closed time entry used by the C9 witness. -/
def closedEntry : TimeEntry :=
  { id := 1, employeeId := 1, date := 20000, checkInTime := "9:00 AM",
    checkOutTime := some "5:00 PM", breakMinutes := some 0, totalHours := some 8 }

/-- A store holding only `closedEntry`, used by the C9 witness. -/
def closedStore : Store := { entries := [closedEntry], nextId := 2 }

/-- Witness for C9 on a store holding one closed entry. -/
theorem claim9_checkoutClosedNoop_witness :
    (closedStore.entries.find? fun u => u.id == 1) = some closedEntry
    ∧ truthyStr closedEntry.checkOutTime = true
    ∧ checkoutTimeEntry 1 "11:00" closedStore = (none, closedStore) :=
  ⟨by decide, by decide,
    claim9_checkoutClosedNoop closedStore 1 "11:00" closedEntry (by decide) (by decide)⟩

/-- C10: the delete operation and its route succeed for every id: the
route always answers 204, deletion filters the id out, and when no entry
has the id the store is unchanged. -/
theorem claim10_deleteIdempotent (st : Store) (id : ℕ) :
    deleteTimeEntryRoute id st = (204, deleteTimeEntry id st)
    ∧ (deleteTimeEntry id st).entries = (st.entries.filter fun t => t.id ≠ id)
    ∧ ((∀ t ∈ st.entries, t.id ≠ id) → deleteTimeEntryRoute id st = (204, st)) := by
  refine ⟨rfl, rfl, fun h => ?_⟩
  have hfe : (st.entries.filter fun t => t.id ≠ id) = st.entries :=
    List.filter_eq_self.mpr fun a ha => by simpa using h a ha
  show (204, deleteTimeEntry id st) = (204, st)
  rw [deleteTimeEntry]
  rw [hfe]

/-- An open time entry with id 1, used by the C10 witness. -/
def openEntry : TimeEntry :=
  { id := 1, employeeId := 1, date := 20000, checkInTime := "9:00 AM",
    checkOutTime := none, breakMinutes := some 0, totalHours := none }

/-- A store holding only `openEntry`, used by the C10 witness. -/
def openStore : Store := { entries := [openEntry], nextId := 2 }

/-- Witness for C10: deleting an id absent from the store. -/
theorem claim10_deleteIdempotent_witness :
    (∀ t ∈ openStore.entries, t.id ≠ 5)
    ∧ deleteTimeEntryRoute 5 openStore = (204, openStore) :=
  ⟨by decide, (claim10_deleteIdempotent openStore 5).2.2 (by decide)⟩

/-- C2: over an inclusive range `[dateFrom, dateTo]` with
`dateFrom ≤ dateTo`, the daily (and custom) chart data has exactly one
bucket per calendar day, in chronological order, and a day no entry
matches still appears as a bucket with an empty value map. -/
theorem claim2_dailyBuckets (db : List TimeEntry) (s e : ℤ) (f : Option ℕ)
    (h : s ≤ e) :
    getCustomReportData db s e f = getDailyReportData db s e f
    ∧ (getDailyReportData db s e f).map Bucket.key =
        ((List.range (e + 1 - s).toNat).map fun (i : ℕ) => s + (i : ℤ))
    ∧ ∀ b ∈ getDailyReportData db s e f,
        (∀ t ∈ db, inRange s e t = true → empFilter f t = true → t.date ≠ b.key) →
        b.values = [] := by
  refine ⟨rfl, ?_, ?_⟩
  · simp only [getDailyReportData, chartFold_char, List.map_map]
    rfl
  · intro b hb hnone
    simp only [getDailyReportData, chartFold_char, List.map_map] at hb
    obtain ⟨i, _, rfl⟩ := List.mem_map.mp hb
    simp only [Function.comp_apply]
    refine valStep_fold_untouched _ _ _ _ fun t ht hcond => ?_
    obtain ⟨htdb, hf⟩ := List.mem_filter.mp ht
    simp only [Bool.and_eq_true] at hf
    exact hnone t htdb hf.1 hf.2 hcond.2

/-- Witness for C2: a 3-day range with zero entries yields exactly 3
buckets, each with an empty value mapping. -/
theorem claim2_dailyBuckets_witness :
    (20000 : ℤ) ≤ 20002
    ∧ ((getDailyReportData [] 20000 20002 none).map Bucket.key =
        ((List.range ((20002 : ℤ) + 1 - 20000).toNat).map fun (i : ℕ) => (20000 : ℤ) + (i : ℤ)))
    ∧ ∀ b ∈ getDailyReportData [] 20000 20002 none,
        (∀ t ∈ ([] : List TimeEntry), inRange 20000 20002 t = true →
          empFilter none t = true → t.date ≠ b.key) →
        b.values = [] :=
  ⟨by decide, (claim2_dailyBuckets [] 20000 20002 none (by decide)).2.1,
    (claim2_dailyBuckets [] 20000 20002 none (by decide)).2.2⟩

/-- C3: the weekly report widens the range outward to the full
Monday-start weeks containing `dateFrom` and `dateTo` and then produces
exactly one bucket per week, in order; every bucket boundary is a Monday
(`getDay = 1`) and each label is the week-start short date, `" - "`, and
the week-end short date. -/
theorem claim3_weeklyBuckets (db : List TimeEntry) (s e : ℤ) (f : Option ℕ)
    (h : s ≤ e) :
    (startOfWeekMon s ≤ s ∧ e ≤ startOfWeekMon e + 6)
    ∧ jsDay (startOfWeekMon s) = 1
    ∧ (getWeeklyReportData db s e f).map Bucket.key =
        ((List.range (((startOfWeekMon e - startOfWeekMon s) / 7).toNat + 1)).map
          fun (k : ℕ) => startOfWeekMon s + 7 * (k : ℤ))
    ∧ ∀ b ∈ getWeeklyReportData db s e f,
        jsDay b.key = 1 ∧ b.label = fmtMMMd b.key ++ " - " ++ fmtMMMd (b.key + 6) := by
  have hmono : startOfWeekMon s ≤ startOfWeekMon e := startOfWeekMon_mono h
  have hs4 : startOfWeekMon s % 7 = 4 := startOfWeekMon_mod
  have he4 : startOfWeekMon e % 7 = 4 := startOfWeekMon_mod
  have hnn : ((startOfWeekMon e - startOfWeekMon s) / 7).toNat =
      (startOfWeekMon e - startOfWeekMon s) / 7 := by
    refine Int.toNat_of_nonneg ?_
    exact Int.ediv_nonneg (by omega) (by omega)
  have hkey : startOfWeekMon e + 6 =
      startOfWeekMon s + 7 * (((startOfWeekMon e - startOfWeekMon s) / 7).toNat : ℤ) + 6 := by
    rw [hnn]; omega
  have hinit : weekBucketsFrom (startOfWeekMon s) (startOfWeekMon e + 6) [] =
      (List.range (((startOfWeekMon e - startOfWeekMon s) / 7).toNat + 1)).map
        fun (k : ℕ) => mkWeekBucket (startOfWeekMon s + 7 * (k : ℤ)) := by
    rw [hkey]
    exact weekBucketsFrom_eq _ _ [] hs4 (by intro x hx; cases hx)
  refine ⟨⟨startOfWeekMon_le s, le_startOfWeekMon_add e⟩, by unfold jsDay; omega, ?_, ?_⟩
  · simp only [getWeeklyReportData, chartFold_char, hinit, List.map_map]
    rfl
  · intro b hb
    simp only [getWeeklyReportData, chartFold_char, hinit, List.map_map] at hb
    obtain ⟨k, _, rfl⟩ := List.mem_map.mp hb
    constructor
    · show jsDay (mkWeekBucket (startOfWeekMon s + 7 * (k : ℤ))).key = 1
      have hk : (mkWeekBucket (startOfWeekMon s + 7 * (k : ℤ))).key =
          startOfWeekMon s + 7 * (k : ℤ) := rfl
      rw [hk]
      unfold jsDay
      omega
    · rfl

/-- Witness for C3 on a range starting mid-week (day 20000 is a
Friday). -/
theorem claim3_weeklyBuckets_witness :
    (20000 : ℤ) ≤ 20010
    ∧ ∀ b ∈ getWeeklyReportData [] 20000 20010 none,
        jsDay b.key = 1 ∧ b.label = fmtMMMd b.key ++ " - " ++ fmtMMMd (b.key + 6) :=
  ⟨by decide, (claim3_weeklyBuckets [] 20000 20010 none (by decide)).2.2.2⟩

/-- C4: in daily and weekly chart aggregation, the value a bucket holds
under an employee's key is exactly the sum of the total hours of that
employee's entries with a non-null total that the query returned for that
bucket (daily: entry date in `[dateFrom, dateTo]` and equal to the
bucket's day; weekly: entry date in the widened Monday-week range with
its week's Monday equal to the bucket's key); entries with a null total
contribute nothing. -/
theorem claim4_chartAggregation (db : List TimeEntry) (s e : ℤ) (f : Option ℕ)
    (hf : f = none ∨ ∃ i, f = some i ∧ i ≠ 0) :
    (∀ b ∈ getDailyReportData db s e f, ∀ empKey : String,
        lookupD b.values empKey =
          ((db.filter fun t => t.totalHours.isSome && inRange s e t && empMatch f t
              && (toString t.employeeId == empKey) && (t.date == b.key)).map
            fun t => t.totalHours.getD 0).sum)
    ∧ ∀ b ∈ getWeeklyReportData db s e f, ∀ empKey : String,
        lookupD b.values empKey =
          ((db.filter fun t => t.totalHours.isSome
              && inRange (startOfWeekMon s) (startOfWeekMon e + 6) t && empMatch f t
              && (toString t.employeeId == empKey) && (startOfWeekMon t.date == b.key)).map
            fun t => t.totalHours.getD 0).sum := by
  have hval0 : ∀ t : TimeEntry, truthyQ t.totalHours = false →
      t.totalHours.getD 0 = 0 := by
    intro t h
    cases htot : t.totalHours with
    | none => rfl
    | some q =>
      rw [htot] at h
      simp only [truthyQ, bne_eq_false_iff_eq] at h
      simp [h]
  have key_char : ∀ (keyOf : ℤ → ℤ) (a b : ℤ) (vs : List (String × ℚ)) (k : ℤ)
      (empKey : String),
      lookupD ((db.filter fun t => inRange a b t && empFilter f t).foldl
        (valStep keyOf k) vs) empKey =
        lookupD vs empKey +
          ((db.filter fun t => t.totalHours.isSome && inRange a b t && empMatch f t
              && (toString t.employeeId == empKey) && (keyOf t.date == k)).map
            fun t => t.totalHours.getD 0).sum := by
    intro keyOf a b vs k empKey
    rw [valStep_fold_lookup]
    congr 1
    rw [List.filter_filter]
    refine sum_filter_congr_zero _ _ _ ?_ ?_
    · intro t hP
      simp only [Bool.and_eq_true] at hP
      obtain ⟨⟨⟨htr, hkeq⟩, hnm⟩, hin, hef⟩ := hP
      have hsome : t.totalHours.isSome = true := by
        cases htot : t.totalHours with
        | none => rw [htot] at htr; exact absurd htr (by simp [truthyQ])
        | some q => rfl
      have hm : empMatch f t = true := by
        rw [← empFilter_eq_empMatch hf]; exact hef
      simp [hsome, hkeq, hnm, hin, hm]
    · intro t hQ hP
      simp only [Bool.and_eq_true] at hQ
      obtain ⟨⟨⟨⟨hsome, hin⟩, hm⟩, hnm⟩, hkeq⟩ := hQ
      by_cases htr : truthyQ t.totalHours = true
      · exfalso
        have hef : empFilter f t = true := by
          rw [empFilter_eq_empMatch hf]; exact hm
        simp [htr, hkeq, hnm, hin, hef] at hP
      · exact hval0 t (by simpa using htr)
  constructor
  · intro b hb empKey
    simp only [getDailyReportData, chartFold_char, List.map_map] at hb
    obtain ⟨i, _, rfl⟩ := List.mem_map.mp hb
    simp only [Function.comp_apply]
    rw [key_char (fun d => d) s e _ _ empKey]
    rw [show lookupD [] empKey = 0 from rfl, zero_add]
  · intro b hb empKey
    simp only [getWeeklyReportData, chartFold_char] at hb
    obtain ⟨b0, hb0mem, rfl⟩ := List.mem_map.mp hb
    have hb0 : b0.values = [] :=
      weekBucketsFrom_values (startOfWeekMon s) (startOfWeekMon e + 6) [] b0 hb0mem
    rw [key_char startOfWeekMon (startOfWeekMon s) (startOfWeekMon e + 6) _ _ empKey]
    rw [hb0]
    rw [show lookupD [] empKey = 0 from rfl, zero_add]

/-- Witness for C4: one matching closed entry, one still-open entry, on
a one-day range. -/
theorem claim4_chartAggregation_witness :
    ((none : Option ℕ) = none ∨ ∃ i, (none : Option ℕ) = some i ∧ i ≠ 0)
    ∧ ∀ b ∈ getDailyReportData
        [{ id := 1, employeeId := 3, date := 20000, checkInTime := "9:00 AM",
           checkOutTime := some "5:00 PM", breakMinutes := some 0, totalHours := some 8 },
         { id := 2, employeeId := 3, date := 20000, checkInTime := "9:00 AM",
           checkOutTime := none, breakMinutes := some 0, totalHours := none }]
        20000 20000 none, ∀ empKey : String,
        lookupD b.values empKey =
          (([{ id := 1, employeeId := 3, date := 20000, checkInTime := "9:00 AM",
               checkOutTime := some "5:00 PM", breakMinutes := some 0, totalHours := some 8 },
             { id := 2, employeeId := 3, date := 20000, checkInTime := "9:00 AM",
               checkOutTime := none, breakMinutes := some 0,
               totalHours := none }].filter fun t => t.totalHours.isSome
              && inRange 20000 20000 t && empMatch none t
              && (toString t.employeeId == empKey) && (t.date == b.key)).map
            fun t => t.totalHours.getD 0).sum :=
  ⟨Or.inl rfl, (claim4_chartAggregation _ 20000 20000 none (Or.inl rfl)).1⟩

/-- C7: `getDashboardStats` reports `weeklyAvgHours` as the sum of total
hours over the entries of the Monday-start week containing the date,
divided by `activeEmployees × 5` (a fixed 5-workday divisor) and rounded
to 2 decimals; it is 0 when there are no active employees. -/
theorem claim7_weeklyAvgHours (db : List TimeEntry) (emps : List Employee) (d : ℤ) :
    (getDashboardStats db emps d).weeklyAvgHours =
      if (emps.filter fun emp => emp.status == "active").length = 0 then 0
      else round2
        (((((db.filter fun t => inRange (startOfWeekMon d) (startOfWeekMon d + 6) t).filter
            fun t => t.totalHours.isSome).map fun t => t.totalHours.getD 0).sum) /
          (((emps.filter fun emp => emp.status == "active").length * 5 : ℕ) : ℚ)) := by
  by_cases hA : (emps.filter fun emp => emp.status == "active").length = 0
  · simp only [getDashboardStats]
    rw [if_neg (by omega), if_pos hA]
    norm_num [round2]
  · have h0 : 0 < (emps.filter fun emp => emp.status == "active").length :=
      Nat.pos_of_ne_zero hA
    simp only [getDashboardStats]
    rw [if_pos h0, if_neg hA]
    rw [sum_ternary_eq_sum_isSome]
    congr 1
    push_cast
    ring

/-- Two active employees used by the C5 theorems. -/
def rptEmployees : List Employee :=
  [{ id := 1, name := "A", status := "active" },
   { id := 2, name := "B", status := "active" }]

/-- Four closed entries: employee 1 worked 1 day (2h), employee 2 worked
3 days (2h each); used by the C5 theorems. -/
def rptEntries : List TimeEntry :=
  [{ id := 1, employeeId := 1, date := 20000, checkInTime := "9:00 AM",
     checkOutTime := some "11:00 AM", breakMinutes := some 0, totalHours := some 2 },
   { id := 2, employeeId := 2, date := 20000, checkInTime := "9:00 AM",
     checkOutTime := some "11:00 AM", breakMinutes := some 0, totalHours := some 2 },
   { id := 3, employeeId := 2, date := 20001, checkInTime := "9:00 AM",
     checkOutTime := some "11:00 AM", breakMinutes := some 0, totalHours := some 2 },
   { id := 4, employeeId := 2, date := 20002, checkInTime := "9:00 AM",
     checkOutTime := some "11:00 AM", breakMinutes := some 0, totalHours := some 2 }]

/-- Counterexample to C5 as stated: in this report the summary rows have
unequal day counts (1 and 3), yet the grand-total `avgDailyHours`
coincides with the mean of the per-row `avgDailyHours` values — the
pooled average does not differ "whenever rows have unequal day
counts". -/
theorem claim5_counterexample :
    ((generateReport rptEntries rptEmployees "daily" 20000 20002 none).summaryData.map
        fun r => r.totalDays) = [1, 3]
    ∧ (generateReport rptEntries rptEmployees "daily" 20000 20002 none).employeeTotals.avgDailyHours =
        (((generateReport rptEntries rptEmployees "daily" 20000 20002 none).summaryData.map
            fun r => r.avgDailyHours).sum) /
          (((generateReport rptEntries rptEmployees "daily" 20000 20002 none).summaryData.length : ℕ) : ℚ) := by
  constructor
  · norm_num +decide [generateReport, getEmployeeSummaryData, rptEntries, rptEmployees,
      inRange, truthyQ]
  · norm_num +decide [generateReport, getEmployeeSummaryData, rptEntries, rptEmployees,
      inRange, truthyQ]

/-- C5 (amended): for every generated report with a non-empty summary
list, the grand-totals row sums `totalDays`, `totalHours` and
`totalBreakMinutes` over the summary rows, and its `avgDailyHours` is the
pooled aggregate `totalHours / totalDays` (0 when the aggregate day count
is 0) — which is not in general the mean of the per-row averages (the two
can differ when rows have unequal day counts). -/
theorem claim5_grandTotals (db : List TimeEntry) (emps : List Employee)
    (rt : String) (s e : ℤ) (f : Option ℕ)
    (h : (generateReport db emps rt s e f).summaryData ≠ []) :
    (generateReport db emps rt s e f).employeeTotals.totalDays =
        ((generateReport db emps rt s e f).summaryData.map fun r => r.totalDays).sum
    ∧ (generateReport db emps rt s e f).employeeTotals.totalHours =
        ((generateReport db emps rt s e f).summaryData.map fun r => r.totalHours).sum
    ∧ (generateReport db emps rt s e f).employeeTotals.totalBreakMinutes =
        ((generateReport db emps rt s e f).summaryData.map fun r => r.totalBreakMinutes).sum
    ∧ (generateReport db emps rt s e f).employeeTotals.avgDailyHours =
        (if 0 < ((generateReport db emps rt s e f).summaryData.map fun r => r.totalDays).sum then
          (((generateReport db emps rt s e f).summaryData.map fun r => r.totalHours).sum) /
            ((((generateReport db emps rt s e f).summaryData.map fun r => r.totalDays).sum : ℕ) : ℚ)
        else 0) := by
  simp only [generateReport] at h ⊢
  have hlen : 0 < (getEmployeeSummaryData db emps s e f).length :=
    List.length_pos.mpr h
  rw [if_pos hlen]
  exact ⟨rfl, rfl, rfl, rfl⟩

/-- Witness for C5 (amended) on the concrete report of the
counterexample data. -/
theorem claim5_grandTotals_witness :
    (generateReport rptEntries rptEmployees "daily" 20000 20002 none).summaryData ≠ []
    ∧ (generateReport rptEntries rptEmployees "daily" 20000 20002 none).employeeTotals.totalDays =
        ((generateReport rptEntries rptEmployees "daily" 20000 20002 none).summaryData.map
          fun r => r.totalDays).sum := by
  have h : (generateReport rptEntries rptEmployees "daily" 20000 20002 none).summaryData ≠ [] := by
    norm_num +decide [generateReport, getEmployeeSummaryData, rptEntries, rptEmployees, inRange]
  exact ⟨h, (claim5_grandTotals rptEntries rptEmployees "daily" 20000 20002 none h).1⟩

/-- A well-formed time string: non-empty, and the stored 12-hour form
produced by `formatTime` is non-empty and parses back to the same
minutes-since-midnight.  Every real `"HH:MM"` clock string satisfies
this. -/
def FormatPreserving (s : String) : Prop :=
  s ≠ "" ∧ formatTime s ≠ "" ∧ timeToMinutes (formatTime s) = timeToMinutes s

instance (s : String) : Decidable (FormatPreserving s) := by
  unfold FormatPreserving
  infer_instance

theorem calc_format_left {a : String} (h : FormatPreserving a) (x : String) (b : ℤ) :
    calculateTotalHours (formatTime a) x b = calculateTotalHours a x b := by
  obtain ⟨ha, hfa, htm⟩ := h
  by_cases hx : x = ""
  · simp [calculateTotalHours, hx]
  · simp [calculateTotalHours, htm, ha, hfa, hx]

theorem calc_format_right {o : String} (h : FormatPreserving o) (c : String) (b : ℤ) :
    calculateTotalHours c (formatTime o) b = calculateTotalHours c o b := by
  obtain ⟨ho, hfo, htm⟩ := h
  by_cases hc : c = ""
  · simp [calculateTotalHours, hc]
  · simp [calculateTotalHours, htm, ho, hfo, hc]

/-- An open entry, used by the C6 counterexample. -/
def c6Entry : TimeEntry :=
  { id := 1, employeeId := 1, date := 20000, checkInTime := "9:00 AM",
    checkOutTime := none, breakMinutes := some 0, totalHours := none }

/-- A store holding one open entry, used by the C6 counterexample. -/
def c6Store : Store := { entries := [c6Entry], nextId := 2 }

/-- Counterexample to C6 as stated: `updateTimeEntry` on a still-open
entry stores a caller-supplied `totalHours` (99) unchanged — the `{...data}`
spread keeps it because no check-out time is present to trigger the
recomputation — so the stored value is taken from the caller's input and
is not `calculateTotalHours` of the entry's times (which is `null`). -/
theorem claim6_counterexample :
    ((updateTimeEntry 1 { totalHours := some (some 99) } c6Store).1.map
        fun t => t.totalHours) = some (some 99)
    ∧ ((updateTimeEntry 1 { totalHours := some (some 99) } c6Store).1.map
        fun t => calculateTotalHours t.checkInTime (t.checkOutTime.getD "")
          (t.breakMinutes.getD 0)) = some none := by
  constructor
  · decide
  · decide

/-- After an update whose supplied time strings are absent or
format-preserving, a row with a truthy check-out time carries the total
hours recomputed from its own stored fields. -/
theorem applyUpdate_totalHours (current : TimeEntry) (data : UpdateData)
    (hcur : current.checkInTime ≠ "")
    (hdin : data.checkInTime = none ∨ ∃ s, data.checkInTime = some s ∧ FormatPreserving s)
    (hdout : data.checkOutTime = none ∨ ∃ s, data.checkOutTime = some s ∧ FormatPreserving s)
    (htr : truthyStr (applyUpdate current data).checkOutTime = true) :
    (applyUpdate current data).totalHours =
      calculateTotalHours (applyUpdate current data).checkInTime
        ((applyUpdate current data).checkOutTime.getD "")
        ((applyUpdate current data).breakMinutes.getD 0) := by
  rcases hdin with hdinN | ⟨si, hdinS, hFPi⟩ <;>
    rcases hdout with hdoutN | ⟨so, hdoutS, hFPo⟩
  · have hco : (applyUpdate current data).checkOutTime = current.checkOutTime := by
      simp [applyUpdate, hdoutN]
    rw [hco] at htr ⊢
    simp [applyUpdate, jsOrStr, jsOrOptStr, hdinN, hdoutN, hcur, htr]
  · have hso : so ≠ "" := hFPo.1
    have hco : (applyUpdate current data).checkOutTime = some (formatTime so) := by
      simp [applyUpdate, hdoutS, hso]
    rw [hco]
    simp only [Option.getD_some]
    rw [calc_format_right hFPo]
    simp [applyUpdate, jsOrStr, jsOrOptStr, hdinN, hdoutS, hso, hcur, truthyStr]
  · have hsi : si ≠ "" := hFPi.1
    have hco : (applyUpdate current data).checkOutTime = current.checkOutTime := by
      simp [applyUpdate, hdoutN]
    rw [hco] at htr ⊢
    have hci : (applyUpdate current data).checkInTime = formatTime si := by
      simp [applyUpdate, hdinS, hsi]
    rw [hci]
    rw [calc_format_left hFPi]
    simp [applyUpdate, jsOrStr, jsOrOptStr, hdinS, hdoutN, hsi, hcur, htr]
  · have hsi : si ≠ "" := hFPi.1
    have hso : so ≠ "" := hFPo.1
    have hco : (applyUpdate current data).checkOutTime = some (formatTime so) := by
      simp [applyUpdate, hdoutS, hso]
    rw [hco]
    simp only [Option.getD_some]
    have hci : (applyUpdate current data).checkInTime = formatTime si := by
      simp [applyUpdate, hdinS, hsi]
    rw [hci]
    rw [calc_format_left hFPi, calc_format_right hFPo]
    simp [applyUpdate, jsOrStr, jsOrOptStr, hdinS, hdoutS, hsi, hso, hcur, truthyStr]

/-- C6 (amended): the stored `totalHours` of a row written by
`createTimeEntry` is always derived (never the caller's `totalHours`):
with a check-out time it equals `calculateTotalHours` of the stored
times and break minutes, and without one it is `null`.  For
`updateTimeEntry`, provided the supplied time strings are absent or
well-formed, a resulting row with a check-out time likewise carries
`calculateTotalHours` of its stored fields; an update that leaves the row
without a check-out time, however, passes a caller-supplied `totalHours`
through (see the counterexample). -/
theorem claim6_amended :
    (∀ (data : InsertTimeEntry) (id : ℕ),
      FormatPreserving data.checkInTime →
      (∀ s, data.checkOutTime = some s → s ≠ "" → FormatPreserving s) →
      ((∀ q, createTimeEntry { data with totalHours := q } id = createTimeEntry data id)
       ∧ (truthyStr (createTimeEntry data id).checkOutTime = true →
            (createTimeEntry data id).totalHours =
              calculateTotalHours (createTimeEntry data id).checkInTime
                ((createTimeEntry data id).checkOutTime.getD "")
                ((createTimeEntry data id).breakMinutes.getD 0))
       ∧ (truthyStr data.checkOutTime = false →
            (createTimeEntry data id).totalHours = none)))
    ∧ ∀ (st : Store) (id : ℕ) (data : UpdateData) (t : TimeEntry),
        (∀ u ∈ st.entries, u.checkInTime ≠ "") →
        (data.checkInTime = none ∨ ∃ s, data.checkInTime = some s ∧ FormatPreserving s) →
        (data.checkOutTime = none ∨ ∃ s, data.checkOutTime = some s ∧ FormatPreserving s) →
        (updateTimeEntry id data st).1 = some t →
        truthyStr t.checkOutTime = true →
        t.totalHours = calculateTotalHours t.checkInTime (t.checkOutTime.getD "")
          (t.breakMinutes.getD 0) := by
  constructor
  · intro data id hin hout
    refine ⟨fun q => rfl, ?_, ?_⟩
    · intro htr
      cases hdo : data.checkOutTime with
      | none =>
        exfalso
        simp [createTimeEntry, hdo, truthyStr] at htr
      | some s =>
        by_cases hs : s = ""
        · exfalso
          subst hs
          simp [createTimeEntry, hdo, truthyStr] at htr
        · have hfs := hout s hdo hs
          have hcin : (createTimeEntry data id).checkInTime = formatTime data.checkInTime := rfl
          have hcout : (createTimeEntry data id).checkOutTime = some (formatTime s) := by
            simp [createTimeEntry, hdo, truthyStr, hs]
          have hbr : (createTimeEntry data id).breakMinutes =
              some (data.breakMinutes.getD 0) := rfl
          have htot : (createTimeEntry data id).totalHours =
              calculateTotalHours data.checkInTime s (data.breakMinutes.getD 0) := by
            simp [createTimeEntry, hdo, truthyStr, hs]
          rw [htot, hcin, hcout, hbr]
          simp only [Option.getD_some]
          rw [calc_format_left hin, calc_format_right hfs]
    · intro hts
      simp [createTimeEntry, hts]
  · intro st id data t hstore hdin hdout hupd htr
    cases hfind : st.entries.find? fun u => u.id == id with
    | none => simp [updateTimeEntry, hfind] at hupd
    | some current =>
      have ht : t = applyUpdate current data := by
        simp [updateTimeEntry, hfind] at hupd
        exact hupd.symm
      subst ht
      exact applyUpdate_totalHours current data
        (hstore current (List.mem_of_find?_eq_some hfind)) hdin hdout htr

/-- The insert payload (with a smuggled `totalHours` of 5) used by the
C6 witness. -/
def c6Insert : InsertTimeEntry :=
  { employeeId := 1, date := 20000, checkInTime := "09:00",
    checkOutTime := some "17:30", breakMinutes := some 30, totalHours := some 5 }

/-- Witness for C6 (amended): creating with `"09:00"`–`"17:30"`, a
30-minute break and a smuggled caller `totalHours` stores the derived
total of the stored fields. -/
theorem claim6_amended_witness :
    FormatPreserving "09:00"
    ∧ (createTimeEntry c6Insert 1).totalHours =
      calculateTotalHours (createTimeEntry c6Insert 1).checkInTime
        ((createTimeEntry c6Insert 1).checkOutTime.getD "")
        ((createTimeEntry c6Insert 1).breakMinutes.getD 0) := by
  refine ⟨by decide, ?_⟩
  refine (claim6_amended.1 c6Insert 1 (by decide) ?_).2.1 (by decide)
  intro s hs hne
  have hseq : s = "17:30" := by
    simpa using congrArg (fun x => x.getD "") hs.symm
  subst hseq
  decide
